import Mathlib

/-!
Verification of the tic-tac-toe engine in `tictactoe.py`.

The Python class `TicTacToe` holds a 3×3 grid of characters ('X', 'O', '_')
and a boolean `player` flag (`true` means 'X' is to move).  We embed the
class as a structure and each mutating method as a state-passing function.
Results keep the source's string-tag signalling ("not_finished", "draw",
"X", "O", and the four validation-error tags).

The recursive minimax (`min_max_algorithm`, `get_best_coordinates`) is
embedded with an explicit fuel parameter; the source recursion terminates
because each ply fills one blank cell, so fuel 9 (the number of cells)
always suffices and the top-level entry points use it.

`random.choice` is modelled by an explicit choice-function parameter
`rand`; Python's `str.split()` / `str.isdigit()` / `str.upper()` are
modelled for the ASCII alphabet the game uses.
-/

namespace TTT

/-- The game state: `grid` is the 3×3 list-of-lists of characters of the
source, `player` the side-to-move flag (`true` = 'X'). -/
structure TicTacToe where
  grid : List (List Char)
  player : Bool
  deriving Repr, DecidableEq

/-- The default empty grid set at the top of `__init__`. -/
def emptyGrid : List (List Char) :=
  [['_', '_', '_'], ['_', '_', '_'], ['_', '_', '_']]

/-- `TicTacToe()` with no preset: empty grid, 'X' to move. -/
def initial : TicTacToe := ⟨emptyGrid, true⟩

/-- Cell read `self.grid[x][y]`.  All reads in the source are in range
where the grid is a well-formed 3×3 matrix; the default ' ' is never a
grid character, so an out-of-range read can never look like a mark or a
blank. -/
def cell (g : List (List Char)) (x y : Nat) : Char :=
  (g.getD x []).getD y ' '

/-- Cell write `self.grid[x][y] = c`. -/
def setCell (g : List (List Char)) (x y : Nat) (c : Char) : List (List Char) :=
  g.set x ((g.getD x []).set y c)

/-- Python `str.upper()` on the ASCII alphabet used by presets:
per-character upcasing. -/
def pyUpper (s : String) : String := String.mk (s.toList.map Char.toUpper)

/-- `TicTacToe.__init__(initial_condition)`: the second component is true
exactly when the source prints the "Wrong initial condition" diagnostic. -/
def construct (initial_condition : Option String) : TicTacToe × Bool :=
  match initial_condition with
  | none => (initial, false)
  | some ic0 =>
    let ic := pyUpper ic0
    if ic.length = 9 ∧
        ic.toList.count 'X' + ic.toList.count 'O' + ic.toList.count '_' = 9 then
      ({ grid := (List.range 3).map (fun i => (ic.toList.drop (3 * i)).take 3),
         player := ic.toList.count 'X' == ic.toList.count 'O' }, false)
    else
      (initial, true)

/-- `get_turn_player`. -/
def get_turn_player (t : TicTacToe) : String := if t.player then "X" else "O"

/-- `get_string_grid`: row-major 9-character serialization built by
appending `''.join(row)` for each row. -/
def get_string_grid (t : TicTacToe) : String :=
  t.grid.foldl (fun string_grid row => string_grid ++ String.mk row) ""

/-- Python `str.isspace()` on a single character: the exact separator
set of `str.split()` with no arguments.  It is the ASCII controls
TAB, LF, VT, FF, CR (U+0009-U+000D) and FS, GS, RS, US
(U+001C-U+001F), the space, NEL (U+0085), and the Unicode space and
line separators NBSP, OGHAM SPACE MARK, EN QUAD through HAIR SPACE,
LINE SEPARATOR, PARAGRAPH SEPARATOR, NARROW NBSP, MEDIUM
MATHEMATICAL SPACE and IDEOGRAPHIC SPACE. -/
def pyIsspace (c : Char) : Bool :=
  c.toNat ∈ [0x9, 0xA, 0xB, 0xC, 0xD, 0x1C, 0x1D, 0x1E, 0x1F, 0x20,
    0x85, 0xA0, 0x1680, 0x2000, 0x2001, 0x2002, 0x2003, 0x2004, 0x2005,
    0x2006, 0x2007, 0x2008, 0x2009, 0x200A, 0x2028, 0x2029, 0x202F,
    0x205F, 0x3000]

/-- Tokenizer for Python `str.split()` with no arguments: maximal runs of
non-whitespace characters, with `acc` holding the current (reversed) run. -/
def splitWsAux : List Char → List Char → List String
  | [], acc => if acc.isEmpty then [] else [String.mk acc.reverse]
  | c :: cs, acc =>
    if pyIsspace c then
      if acc.isEmpty then splitWsAux cs [] else String.mk acc.reverse :: splitWsAux cs []
    else splitWsAux cs (c :: acc)

/-- Python `str.split()` with no arguments: split on whitespace runs,
dropping empty tokens. -/
def pySplit (s : String) : List String := splitWsAux s.toList []

/-- Python `str.isdigit()` restricted to ASCII input, where it holds
exactly of the nonempty strings of decimal digits 0-9.  On non-ASCII
input the full `str.isdigit` also accepts digit-class characters such
as the superscript two U+00B2, on which the subsequent `int(...)` of
`place_move` then raises an uncaught ValueError, so on such input the
program crashes and returns nothing at all; the digit stage of
`place_move` is therefore modelled on ASCII input only, where
`str.isdigit` and `int` agree with this model on every Python 3
version. -/
def pyIsdigit (s : String) : Bool := !s.isEmpty && s.toList.all Char.isDigit

/-- Python `int(...)` on a string of ASCII digits. -/
def strToNat (s : String) : Nat :=
  s.toList.foldl (fun n c => 10 * n + (c.toNat - '0'.toNat)) 0

/-- `game_state(x, y)`: classify the position after a move in cell
`(x, y)` (0-based).  The chained comparisons `a == b == c` of the source
become pairwise conjunctions. -/
def game_state (t : TicTacToe) (x y : Nat) : String :=
  let possible_winner := !t.player
  let w := if possible_winner then "X" else "O"
  if cell t.grid 0 y = cell t.grid 1 y ∧ cell t.grid 1 y = cell t.grid 2 y then w
  else if cell t.grid x 0 = cell t.grid x 1 ∧ cell t.grid x 1 = cell t.grid x 2 then w
  else if x = y ∧ cell t.grid 0 0 = cell t.grid 1 1 ∧ cell t.grid 1 1 = cell t.grid 2 2 then w
  else if x + y = 2 ∧ cell t.grid 0 2 = cell t.grid 1 1 ∧ cell t.grid 1 1 = cell t.grid 2 0 then w
  else if (get_string_grid t).toList.count '_' ≠ 0 then "not_finished"
  else "draw"

/-- `place_move(coordinates)`: parse, validate, mutate, classify.  Returns
the result string together with the updated state. -/
def place_move (t : TicTacToe) (coordinates : String) : String × TicTacToe :=
  let coordinates_list := pySplit coordinates
  if coordinates_list.length ≠ 2 then ("not_coordinates_pair", t)
  else
    let xs := coordinates_list.getD 0 ""
    let ys := coordinates_list.getD 1 ""
    if ¬(pyIsdigit xs ∧ pyIsdigit ys) then ("not_number_symbol", t)
    else
      let x : Int := (strToNat xs : Int) - 1
      let y : Int := (strToNat ys : Int) - 1
      if x < 0 ∨ x > 2 ∨ y < 0 ∨ y > 2 then ("out_of_range", t)
      else if cell t.grid x.toNat y.toNat ≠ '_' then ("occupied_cell", t)
      else
        let t' : TicTacToe :=
          ⟨setCell t.grid x.toNat y.toNat (if t.player then 'X' else 'O'), !t.player⟩
        (game_state t' x.toNat y.toNat, t')

/-- `undo_move(coordinates)`: clear the 1-based cell and flip the side
to move.  The source never calls it with a coordinate below 1, so the
truncated subtraction agrees with Python's. -/
def undo_move (t : TicTacToe) (coordinates : Nat × Nat) : TicTacToe :=
  ⟨setCell t.grid (coordinates.1 - 1) (coordinates.2 - 1) '_', !t.player⟩

/-- `get_blank_coordinates`: the 1-based coordinates of the blank cells,
in row-major order, read off the string serialization. -/
def get_blank_coordinates (t : TicTacToe) : List (Nat × Nat) :=
  let string_grid := get_string_grid t
  ((List.range 9).filter
      (fun position => string_grid.toList.getD position ' ' == '_')).map
    (fun position => (position / 3 + 1, position % 3 + 1))

/-- The f-string `f'{coordinates[0]} {coordinates[1]}'`. -/
def fmtCoords (c : Nat × Nat) : String :=
  toString c.1 ++ " " ++ toString c.2

/-- `get_random_coordinates`, with `random.choice` supplied as `rand`. -/
def get_random_coordinates (t : TicTacToe)
    (rand : List (Nat × Nat) → Nat × Nat) : Nat × Nat :=
  rand (get_blank_coordinates t)

/-- The `neighbours` table of `get_relevant_coordinates`. -/
def neighbours : List (Nat × Nat) := [(1, 2), (0, 2), (0, 1)]

/-- The scanning loop of `get_relevant_coordinates`: the first blank cell
through which some line has its other two cells equal and non-blank.
Python's chained `a == b != '_'` is `a = b ∧ b ≠ '_'`. -/
def relevantScan (t : TicTacToe) : List (Nat × Nat) → Option (Nat × Nat)
  | [] => none
  | coordinates :: rest =>
    let row := coordinates.1 - 1
    let column := coordinates.2 - 1
    let nr := neighbours.getD row (0, 0)
    let nc := neighbours.getD column (0, 0)
    if cell t.grid row nc.1 = cell t.grid row nc.2 ∧ cell t.grid row nc.2 ≠ '_' then
      some coordinates
    else if cell t.grid nr.1 column = cell t.grid nr.2 column ∧ cell t.grid nr.2 column ≠ '_' then
      some coordinates
    else if row = column ∧ cell t.grid nr.1 nc.1 = cell t.grid nr.2 nc.2 ∧ cell t.grid nr.2 nc.2 ≠ '_' then
      some coordinates
    else if row + column = 2 ∧ cell t.grid nr.1 nc.2 = cell t.grid nr.2 nc.1 ∧ cell t.grid nr.2 nc.1 ≠ '_' then
      some coordinates
    else relevantScan t rest

/-- `get_relevant_coordinates`: scan the blanks; if no cell qualifies,
fall back to `random.choice(blank_coordinates)`. -/
def get_relevant_coordinates (t : TicTacToe)
    (rand : List (Nat × Nat) → Nat × Nat) : Nat × Nat :=
  let blank_coordinates := get_blank_coordinates t
  match relevantScan t blank_coordinates with
  | some coordinates => coordinates
  | none => rand blank_coordinates

/-- The scoring loop of `min_max_algorithm`: for each coordinate, place
the move, score the child with `step`, undo the move, and thread the
(restored) state on to the rest of the loop.  Returns the `scores` list
together with the final state. -/
def mmLoop (step : TicTacToe → String → Bool → Int) (t : TicTacToe)
    (maximizing : Bool) : List (Nat × Nat) → List Int × TicTacToe
  | [] => ([], t)
  | coordinates :: rest =>
    let p := place_move t (fmtCoords coordinates)
    let score := step p.2 p.1 (!maximizing)
    let t2 := undo_move p.2 coordinates
    let r := mmLoop step t2 maximizing rest
    (score :: r.1, r.2)

/-- `min_max_algorithm(move_result, computer_player, maximizing)`, with an
explicit fuel for the recursion (each ply fills a blank cell, so fuel 9
covers every position; the fuel-0 value is never reached from the actual
entry points).  Python's `max(scores)` / `min(scores)` on the nonempty
scores list becomes `max?`/`min?` with a (never used) default. -/
def min_max_algorithm : Nat → TicTacToe → String → String → Bool → Int
  | fuel, t, move_result, computer_player, maximizing =>
    if move_result = "draw" then 0
    else if move_result ≠ "not_finished" then
      if computer_player = move_result then 1 else -1
    else
      match fuel with
      | 0 => 0
      | fuel' + 1 =>
        let r := mmLoop (fun t' mr m => min_max_algorithm fuel' t' mr computer_player m)
          t maximizing (get_blank_coordinates t)
        if maximizing then r.1.max?.getD 0 else r.1.min?.getD 0

/-- The selection loop of `get_best_coordinates`: `best_score` starts at
`-math.inf` (modelled as `none`) and `best_coordinates` at `None`; a
strictly larger score replaces both. -/
def gbLoop (score : TicTacToe → String → Int) (t : TicTacToe) :
    List (Nat × Nat) → Option Int → Option (Nat × Nat) →
      Option (Nat × Nat) × TicTacToe
  | [], _, best_coordinates => (best_coordinates, t)
  | coordinates :: rest, best_score, best_coordinates =>
    let p := place_move t (fmtCoords coordinates)
    let s := score p.2 p.1
    let t2 := undo_move p.2 coordinates
    if (match best_score with | none => true | some b => s > b) then
      gbLoop score t2 rest (some s) (some coordinates)
    else
      gbLoop score t2 rest best_score best_coordinates

/-- `get_best_coordinates`: exhaustive minimax choice for the side on
move.  The root scores each child with `min_max_algorithm` at the default
`maximizing=False`. -/
def get_best_coordinates (t : TicTacToe) : Option (Nat × Nat) :=
  let computer_player := if t.player then "X" else "O"
  (gbLoop (fun t' mr => min_max_algorithm 9 t' mr computer_player false)
    t (get_blank_coordinates t) none none).1

/-- The always-hard branch of `get_coordinates`.  Formatting `None` would
raise in Python; the empty string stands in for that unreachable case
(the shell only asks for a move while the game is ongoing). -/
def hardBranch (t : TicTacToe) : String :=
  match get_best_coordinates t with
  | some best_coordinates => fmtCoords best_coordinates
  | none => ""

/-- `get_coordinates(difficulty)`: easy and medium are matched by name,
anything else falls into the `else` (hard) branch. -/
def get_coordinates (t : TicTacToe) (rand : List (Nat × Nat) → Nat × Nat)
    (difficulty : String) : String :=
  if difficulty = "easy" then fmtCoords (get_random_coordinates t rand)
  else if difficulty = "medium" then fmtCoords (get_relevant_coordinates t rand)
  else hardBranch t

/-- Sequential play where both sides use `get_best_coordinates`, applied
through `place_move`, until a move returns something other than
"not_finished"; that result is returned. -/
def bestVsBest : Nat → TicTacToe → String
  | 0, _ => ""
  | fuel + 1, t =>
    match get_best_coordinates t with
    | none => ""
    | some best_coordinates =>
      let p := place_move t (fmtCoords best_coordinates)
      if p.1 = "not_finished" then bestVsBest fuel p.2 else p.1

/-- The four validation-failure tags of `place_move`. -/
def isErrorResult (r : String) : Prop :=
  r = "not_coordinates_pair" ∨ r = "not_number_symbol" ∨
    r = "out_of_range" ∨ r = "occupied_cell"

/-- `game_state` only ever returns the mover's mark, "draw" or
"not_finished". -/
theorem game_state_range (t : TicTacToe) (x y : Nat) :
    game_state t x y = (if !t.player then "X" else "O") ∨
      game_state t x y = "draw" ∨ game_state t x y = "not_finished" := by
  unfold game_state
  split_ifs <;> cases hp : t.player <;> simp_all

theorem game_state_not_error (t : TicTacToe) (x y : Nat) :
    ¬ isErrorResult (game_state t x y) := by
  rcases game_state_range t x y with h | h | h <;>
    rw [isErrorResult, h] <;> cases t.player <;> simp <;> decide

theorem game_state_outcome (t : TicTacToe) (x y : Nat) :
    game_state t x y = "X" ∨ game_state t x y = "O" ∨
      game_state t x y = "draw" ∨ game_state t x y = "not_finished" := by
  rcases game_state_range t x y with h | h | h <;> cases hp : t.player <;> simp_all

set_option maxHeartbeats 2000000 in
/-- Exhaustive case analysis of `place_move`: state preservation on
failure, the fixed failure order, and the success shape. -/
theorem place_move_spec (t : TicTacToe) (s : String) :
    (isErrorResult (place_move t s).1 → (place_move t s).2 = t)
    ∧ ((place_move t s).1 = "not_coordinates_pair" ↔ (pySplit s).length ≠ 2)
    ∧ ((place_move t s).1 = "not_number_symbol" ↔
        (pySplit s).length = 2 ∧
          ¬(pyIsdigit ((pySplit s).getD 0 "") ∧ pyIsdigit ((pySplit s).getD 1 "")))
    ∧ ((place_move t s).1 = "out_of_range" ↔
        (pySplit s).length = 2 ∧
          (pyIsdigit ((pySplit s).getD 0 "") ∧ pyIsdigit ((pySplit s).getD 1 "")) ∧
          ((strToNat ((pySplit s).getD 0 "") : Int) - 1 < 0 ∨
            (strToNat ((pySplit s).getD 0 "") : Int) - 1 > 2 ∨
            (strToNat ((pySplit s).getD 1 "") : Int) - 1 < 0 ∨
            (strToNat ((pySplit s).getD 1 "") : Int) - 1 > 2))
    ∧ ((place_move t s).1 = "occupied_cell" ↔
        (pySplit s).length = 2 ∧
          (pyIsdigit ((pySplit s).getD 0 "") ∧ pyIsdigit ((pySplit s).getD 1 "")) ∧
          ¬((strToNat ((pySplit s).getD 0 "") : Int) - 1 < 0 ∨
            (strToNat ((pySplit s).getD 0 "") : Int) - 1 > 2 ∨
            (strToNat ((pySplit s).getD 1 "") : Int) - 1 < 0 ∨
            (strToNat ((pySplit s).getD 1 "") : Int) - 1 > 2) ∧
          cell t.grid ((strToNat ((pySplit s).getD 0 "") : Int) - 1).toNat
            ((strToNat ((pySplit s).getD 1 "") : Int) - 1).toNat ≠ '_')
    ∧ (¬ isErrorResult (place_move t s).1 →
        (place_move t s).2 =
          ⟨setCell t.grid ((strToNat ((pySplit s).getD 0 "") : Int) - 1).toNat
              ((strToNat ((pySplit s).getD 1 "") : Int) - 1).toNat
              (if t.player then 'X' else 'O'), !t.player⟩ ∧
          (place_move t s).1 =
            game_state (place_move t s).2
              ((strToNat ((pySplit s).getD 0 "") : Int) - 1).toNat
              ((strToNat ((pySplit s).getD 1 "") : Int) - 1).toNat ∧
          ((strToNat ((pySplit s).getD 0 "") : Int) - 1).toNat ≤ 2 ∧
          ((strToNat ((pySplit s).getD 1 "") : Int) - 1).toNat ≤ 2 ∧
          cell t.grid ((strToNat ((pySplit s).getD 0 "") : Int) - 1).toNat
            ((strToNat ((pySplit s).getD 1 "") : Int) - 1).toNat = '_') := by
  have hrange := game_state_not_error
  unfold place_move
  by_cases h1 : (pySplit s).length ≠ 2 <;>
    by_cases h2 : pyIsdigit ((pySplit s).getD 0 "") ∧
      pyIsdigit ((pySplit s).getD 1 "") <;>
    simp only [h1, h2, if_true, if_false, ite_true, ite_false, not_true, not_false_iff] <;>
    (try split_ifs with h3 h4) <;>
    refine ⟨?_, ?_, ?_, ?_, ?_, ?_⟩ <;>
    simp_all [isErrorResult] <;>
    first
      | (intro h; exact absurd (by rw [isErrorResult]; tauto) (hrange _ _ _))
      | (refine ⟨rfl, rfl, ?_, ?_, by simpa using h4⟩ <;> omega)

/-- The inputs on which the parsing model of `place_move` is exact:
every character is ASCII.  Beyond ASCII, Python's `str.isdigit`
accepts digit-class characters that `int(...)` rejects with an
uncaught ValueError, so there `place_move` can crash instead of
returning a tag. -/
def asciiOnly (s : String) : Prop := ∀ c ∈ s.data, c.toNat ≤ 127

instance (s : String) : Decidable (asciiOnly s) := by
  unfold asciiOnly
  infer_instance

/-- Claim C7, the part that holds of the program — the four concrete
validation failures of the spec's examples: an out-of-range row, a
non-numeric pair, a single token, and a repeated cell.  The claim's
further clause that `place_move` always returns a game outcome or one
of the four tags is not true of the program: a token such as the
superscript two U+00B2 passes `str.isdigit` and then makes `int(...)`
raise an uncaught ValueError, so the program crashes rather than
returning a result. -/
theorem place_move_examples :
    (place_move initial "4 1").1 = "out_of_range"
    ∧ (place_move initial "a b").1 = "not_number_symbol"
    ∧ (place_move initial "1").1 = "not_coordinates_pair"
    ∧ (place_move (place_move initial "1 1").2 "1 1").1 = "occupied_cell" :=
  ⟨by decide, by decide, by decide, by decide⟩

theorem getD_eq_default_of_le {α : Type} (l : List α) (i : Nat) (d : α)
    (h : l.length ≤ i) : l.getD i d = d := by
  rw [List.getD_eq_getElem?_getD, List.getElem?_eq_none h]
  rfl

theorem bounds_of_cell_ne {g : List (List Char)} {x y : Nat}
    (h : cell g x y ≠ ' ') : x < g.length ∧ y < (g.getD x []).length := by
  constructor
  · by_contra hx
    exact h (by rw [cell, getD_eq_default_of_le g x [] (le_of_not_lt hx)]; rfl)
  · by_contra hy
    exact h (by rw [cell, getD_eq_default_of_le _ y ' ' (le_of_not_lt hy)])

theorem set_getD_self {α : Type} (l : List α) (i : Nat) (d : α)
    (h : i < l.length) : l.set i (l.getD i d) = l := by
  apply List.ext_getElem?
  intro n
  by_cases hn : i = n
  · subst hn
    rw [List.getElem?_set_self h, List.getD_eq_getElem?_getD,
      List.getElem?_eq_getElem h]
    rfl
  · rw [List.getElem?_set_ne hn]

theorem getD_set_self {α : Type} (l : List α) (i : Nat) (v : α) (d : α)
    (h : i < l.length) : (l.set i v).getD i d = v := by
  rw [List.getD_eq_getElem?_getD, List.getElem?_set_self h]
  rfl

theorem setCell_setCell (g : List (List Char)) (x y : Nat) (c d : Char) :
    setCell (setCell g x y c) x y d = setCell g x y d := by
  by_cases hx : x < g.length
  · unfold setCell
    rw [getD_set_self g x _ [] hx, List.set_set, List.set_set]
  · have hg : ∀ r, g.set x r = g := fun r => List.set_eq_of_length_le (le_of_not_lt hx)
    unfold setCell
    rw [hg, hg]
    try rw [hg]

theorem setCell_restore {g : List (List Char)} {x y : Nat}
    (h : cell g x y = '_') : setCell g x y '_' = g := by
  obtain ⟨hx, hy⟩ := bounds_of_cell_ne (g := g) (by rw [h]; decide)
  rw [cell] at h
  rw [setCell, ← h, set_getD_self _ y ' ' hy, set_getD_self g x [] hx]

/-- For 1-based coordinates in range aimed at an empty cell, `place_move`
on the formatted coordinate string succeeds: it writes the mover's mark,
flips the side to move and classifies at that cell. -/
theorem place_fmt_core (t : TicTacToe) (a b : Nat)
    (ha1 : 1 ≤ a) (ha3 : a ≤ 3) (hb1 : 1 ≤ b) (hb3 : b ≤ 3)
    (hemp : cell t.grid (a - 1) (b - 1) = '_') :
    place_move t (fmtCoords (a, b)) =
      (game_state ⟨setCell t.grid (a - 1) (b - 1) (if t.player then 'X' else 'O'), !t.player⟩
          (a - 1) (b - 1),
        ⟨setCell t.grid (a - 1) (b - 1) (if t.player then 'X' else 'O'), !t.player⟩) := by
  interval_cases a <;> interval_cases b <;>
    simp_all +decide [place_move, fmtCoords,
      show pySplit (toString (1:Nat) ++ " " ++ toString (1:Nat)) = ["1", "1"] from rfl,
      show pySplit (toString (1:Nat) ++ " " ++ toString (2:Nat)) = ["1", "2"] from rfl,
      show pySplit (toString (1:Nat) ++ " " ++ toString (3:Nat)) = ["1", "3"] from rfl,
      show pySplit (toString (2:Nat) ++ " " ++ toString (1:Nat)) = ["2", "1"] from rfl,
      show pySplit (toString (2:Nat) ++ " " ++ toString (2:Nat)) = ["2", "2"] from rfl,
      show pySplit (toString (2:Nat) ++ " " ++ toString (3:Nat)) = ["2", "3"] from rfl,
      show pySplit (toString (3:Nat) ++ " " ++ toString (1:Nat)) = ["3", "1"] from rfl,
      show pySplit (toString (3:Nat) ++ " " ++ toString (2:Nat)) = ["3", "2"] from rfl,
      show pySplit (toString (3:Nat) ++ " " ++ toString (3:Nat)) = ["3", "3"] from rfl,
      show strToNat "1" = 1 from rfl, show strToNat "2" = 2 from rfl,
      show strToNat "3" = 3 from rfl]

/-- Claim C4: a successful `place_move` at an empty in-range cell,
immediately followed by `undo_move` at the same cell, restores the whole
prior state: the exact board (hence its string serialization) and the
prior side to move. -/
theorem apply_then_undo_restores (t : TicTacToe) (a b : Nat)
    (ha1 : 1 ≤ a) (ha3 : a ≤ 3) (hb1 : 1 ≤ b) (hb3 : b ≤ 3)
    (hemp : cell t.grid (a - 1) (b - 1) = '_') :
    ¬ isErrorResult (place_move t (fmtCoords (a, b))).1
    ∧ undo_move (place_move t (fmtCoords (a, b))).2 (a, b) = t
    ∧ get_string_grid (undo_move (place_move t (fmtCoords (a, b))).2 (a, b)) =
        get_string_grid t
    ∧ (undo_move (place_move t (fmtCoords (a, b))).2 (a, b)).player = t.player := by
  have hpf := place_fmt_core t a b ha1 ha3 hb1 hb3 hemp
  have hu : undo_move (place_move t (fmtCoords (a, b))).2 (a, b) = t := by
    rw [hpf, undo_move]
    simp only []
    rw [setCell_setCell, setCell_restore hemp, Bool.not_not]
  refine ⟨?_, hu, by rw [hu], by rw [hu]⟩
  rw [hpf]
  exact game_state_not_error _ _ _

/-- A line of three equal, non-blank cells, following the spec's words. -/
def lineWinSpec (a b c : Char) : Prop := a = b ∧ b = c ∧ a ≠ '_'

/-- One of the four lines through cell `(x, y)` (0-based) is a winning
line: its column, its row, the main diagonal when `x = y`, the
anti-diagonal when `x + y = 2`. -/
def winningLineThrough (g : List (List Char)) (x y : Nat) : Prop :=
  lineWinSpec (cell g 0 y) (cell g 1 y) (cell g 2 y)
  ∨ lineWinSpec (cell g x 0) (cell g x 1) (cell g x 2)
  ∨ (x = y ∧ lineWinSpec (cell g 0 0) (cell g 1 1) (cell g 2 2))
  ∨ (x + y = 2 ∧ lineWinSpec (cell g 0 2) (cell g 1 1) (cell g 2 0))

set_option maxHeartbeats 3200000 in
/-- Full classification contract of `game_state` at a cell holding the
mark just played: win reported iff a line through the cell is complete,
draw iff no line and no blank, not finished otherwise. -/
theorem game_state_spec (t : TicTacToe) (x y : Nat)
    (hx : x ≤ 2) (hy : y ≤ 2)
    (hcell : cell t.grid x y = (if !t.player then 'X' else 'O')) :
    (game_state t x y = (if !t.player then "X" else "O") ↔
      winningLineThrough t.grid x y)
    ∧ (game_state t x y = "draw" ↔
      ¬ winningLineThrough t.grid x y ∧ (get_string_grid t).toList.count '_' = 0)
    ∧ (game_state t x y = "not_finished" ↔
      ¬ winningLineThrough t.grid x y ∧ (get_string_grid t).toList.count '_' ≠ 0) := by
  interval_cases x <;> interval_cases y <;>
    (unfold game_state winningLineThrough lineWinSpec;
     split_ifs <;> cases hp : t.player <;> simp_all <;> try tauto)

/-- Claim C3: when cell `(x, y)` holds the mark just played (the side
before the flip), `game_state` reports that side as winner exactly when
one of the four lines through the cell has three equal non-blank cells;
otherwise it reports "draw" exactly when no blank remains, and
"not_finished" exactly when a blank remains — so a win is never missed
and takes precedence over a simultaneous full board. -/
theorem classify_contract (t : TicTacToe) (x y : Nat)
    (hx : x ≤ 2) (hy : y ≤ 2)
    (hcell : cell t.grid x y = (if !t.player then 'X' else 'O')) :
    (game_state t x y = (if !t.player then "X" else "O") ↔
      winningLineThrough t.grid x y)
    ∧ (game_state t x y = "draw" ↔
      ¬ winningLineThrough t.grid x y ∧ (get_string_grid t).toList.count '_' = 0)
    ∧ (game_state t x y = "not_finished" ↔
      ¬ winningLineThrough t.grid x y ∧ (get_string_grid t).toList.count '_' ≠ 0) :=
  game_state_spec t x y hx hy hcell

theorem classify_contract_witness :
    ((0:Nat) ≤ 2 ∧ (0:Nat) ≤ 2 ∧
      cell (TicTacToe.mk [['X', 'O', '_'], ['X', 'O', '_'], ['X', '_', '_']] false).grid 0 0 =
        (if !(TicTacToe.mk [['X', 'O', '_'], ['X', 'O', '_'], ['X', '_', '_']] false).player
          then 'X' else 'O'))
    ∧ ((game_state (TicTacToe.mk [['X', 'O', '_'], ['X', 'O', '_'], ['X', '_', '_']] false) 0 0 =
        (if !(TicTacToe.mk [['X', 'O', '_'], ['X', 'O', '_'], ['X', '_', '_']] false).player
          then "X" else "O") ↔
        winningLineThrough
          (TicTacToe.mk [['X', 'O', '_'], ['X', 'O', '_'], ['X', '_', '_']] false).grid 0 0)
      ∧ (game_state (TicTacToe.mk [['X', 'O', '_'], ['X', 'O', '_'], ['X', '_', '_']] false) 0 0 =
          "draw" ↔
        ¬ winningLineThrough
            (TicTacToe.mk [['X', 'O', '_'], ['X', 'O', '_'], ['X', '_', '_']] false).grid 0 0 ∧
          (get_string_grid
            (TicTacToe.mk [['X', 'O', '_'], ['X', 'O', '_'], ['X', '_', '_']] false)).toList.count
            '_' = 0)
      ∧ (game_state (TicTacToe.mk [['X', 'O', '_'], ['X', 'O', '_'], ['X', '_', '_']] false) 0 0 =
          "not_finished" ↔
        ¬ winningLineThrough
            (TicTacToe.mk [['X', 'O', '_'], ['X', 'O', '_'], ['X', '_', '_']] false).grid 0 0 ∧
          (get_string_grid
            (TicTacToe.mk [['X', 'O', '_'], ['X', 'O', '_'], ['X', '_', '_']] false)).toList.count
            '_' ≠ 0)) :=
  ⟨⟨by decide, by decide, by decide⟩,
    classify_contract (TicTacToe.mk [['X', 'O', '_'], ['X', 'O', '_'], ['X', '_', '_']] false) 0 0
      (by decide) (by decide) (by decide)⟩

theorem apply_then_undo_restores_witness :
    ((1:Nat) ≤ 2 ∧ (2:Nat) ≤ 3 ∧ (1:Nat) ≤ 3 ∧ (3:Nat) ≤ 3 ∧
      cell initial.grid (2 - 1) (3 - 1) = '_')
    ∧ (¬ isErrorResult (place_move initial (fmtCoords (2, 3))).1
      ∧ undo_move (place_move initial (fmtCoords (2, 3))).2 (2, 3) = initial
      ∧ get_string_grid (undo_move (place_move initial (fmtCoords (2, 3))).2 (2, 3)) =
          get_string_grid initial
      ∧ (undo_move (place_move initial (fmtCoords (2, 3))).2 (2, 3)).player =
          initial.player) :=
  ⟨⟨by decide, by decide, by decide, by decide, by decide⟩,
    apply_then_undo_restores initial 2 3 (by decide) (by decide) (by decide) (by decide)
      (by decide)⟩


/-- Number of occurrences of mark `c` on the serialized board. -/
def countMark (t : TicTacToe) (c : Char) : Nat :=
  (get_string_grid t).toList.count c

instance (r : String) : Decidable (isErrorResult r) := by
  unfold isErrorResult
  infer_instance

/-- Apply a list of raw coordinate strings through `place_move`,
failing if any move is rejected by validation. -/
def applyMoves : TicTacToe → List String → Option TicTacToe
  | t, [] => some t
  | t, s :: rest =>
    if isErrorResult (place_move t s).1 then none
    else applyMoves (place_move t s).2 rest

/-- States reachable from the empty board by successful moves. -/
def Reachable (t : TicTacToe) : Prop :=
  ∃ ms : List String, applyMoves initial ms = some t

/-- The grid is a well-formed 3×3 matrix. -/
def WF (t : TicTacToe) : Prop :=
  t.grid.length = 3 ∧ ∀ r ∈ t.grid, r.length = 3

/-- Every grid character is a mark or the blank. -/
def charsOK (t : TicTacToe) : Prop :=
  ∀ r ∈ t.grid, ∀ ch ∈ r, ch = 'X' ∨ ch = 'O' ∨ ch = '_'

/-- The strict-alternation invariant tying mark counts to the turn flag. -/
def parityOK (t : TicTacToe) : Prop :=
  (t.player = true ∧ countMark t 'X' = countMark t 'O')
  ∨ (t.player = false ∧ countMark t 'X' = countMark t 'O' + 1)

def Inv (t : TicTacToe) : Prop := WF t ∧ charsOK t ∧ parityOK t

theorem toList_get_string_grid (t : TicTacToe) :
    (get_string_grid t).toList = t.grid.flatten := by
  suffices h : ∀ (rows : List (List Char)) (acc : String),
      (rows.foldl (fun sg row => sg ++ String.mk row) acc).toList =
        acc.toList ++ rows.flatten by
    simpa using h t.grid ""
  intro rows
  induction rows with
  | nil => intro acc; simp
  | cons r tail ih =>
    intro acc
    rw [List.foldl_cons, ih (acc ++ String.mk r),
      show (acc ++ String.mk r).toList = acc.toList ++ r from rfl,
      List.append_assoc]
    rfl

theorem count_set_add {α : Type} [DecidableEq α] (l : List α) (y : Nat)
    (m c d : α) (hy : y < l.length) :
    (l.set y m).count c + (if l.getD y d = c then 1 else 0) =
      l.count c + (if m = c then 1 else 0) := by
  induction l generalizing y with
  | nil => simp at hy
  | cons a tail ih =>
    cases y with
    | zero =>
      simp only [List.set_cons_zero, List.count_cons, List.getD_cons_zero, beq_iff_eq]
      omega
    | succ y' =>
      have hy' : y' < tail.length := by simpa using hy
      have h2 := ih y' hy'
      simp only [List.set_cons_succ, List.count_cons, List.getD_cons_succ, beq_iff_eq]
      omega


theorem getD_irrel {α : Type} (l : List α) (i : Nat) (d1 d2 : α)
    (h : i < l.length) : l.getD i d1 = l.getD i d2 := by
  rw [List.getD_eq_getElem?_getD, List.getD_eq_getElem?_getD,
    List.getElem?_eq_getElem h]
  rfl

theorem getD_mem_of_lt {α : Type} (l : List α) (i : Nat) (d : α)
    (h : i < l.length) : l.getD i d ∈ l := by
  rw [List.getD_eq_getElem?_getD, List.getElem?_eq_getElem h]
  exact List.getElem_mem h

theorem count_flatten_setCell (g : List (List Char)) (x y : Nat) (m c : Char)
    (hx : x < g.length) (hy : y < (g.getD x []).length) :
    (setCell g x y m).flatten.count c + (if (g.getD x []).getD y ' ' = c then 1 else 0)
      = g.flatten.count c + (if m = c then 1 else 0) := by
  induction g generalizing x with
  | nil => simp at hx
  | cons R tail ih =>
    cases x with
    | zero =>
      simp only [List.getD_cons_zero] at hy ⊢
      have h2 := count_set_add R y m c ' ' hy
      simp only [setCell, List.getD_cons_zero, List.set_cons_zero,
        List.flatten_cons, List.count_append]
      omega
    | succ x' =>
      have hx' : x' < tail.length := by simpa using hx
      simp only [List.getD_cons_succ] at hy ⊢
      have h2 := ih x' hx' hy
      simp only [setCell, List.getD_cons_succ, List.set_cons_succ,
        List.flatten_cons, List.count_append] at h2 ⊢
      omega

theorem countMark_place (t : TicTacToe) (x y : Nat) (m : Char) (p : Bool)
    (hcell : cell t.grid x y = '_') (c : Char) :
    countMark ⟨setCell t.grid x y m, p⟩ c + (if '_' = c then 1 else 0) =
      countMark t c + (if m = c then 1 else 0) := by
  obtain ⟨hx, hy⟩ := bounds_of_cell_ne (g := t.grid) (x := x) (y := y) (by rw [hcell]; decide)
  have h2 := count_flatten_setCell t.grid x y m c hx hy
  rw [cell] at hcell
  rw [hcell] at h2
  unfold countMark
  rw [toList_get_string_grid, toList_get_string_grid]
  exact h2

theorem WF_place (t : TicTacToe) (x y : Nat) (m : Char) (p : Bool)
    (h : WF t) : WF ⟨setCell t.grid x y m, p⟩ := by
  obtain ⟨hlen, hrows⟩ := h
  refine ⟨by simpa [setCell] using hlen, ?_⟩
  intro r hr
  by_cases hx : x < t.grid.length
  · rcases List.mem_or_eq_of_mem_set hr with hr' | hr'
    · exact hrows r hr'
    · subst hr'
      rw [List.length_set]
      exact hrows _ (getD_mem_of_lt _ _ _ hx)
  · rw [show ({ grid := setCell t.grid x y m, player := p } : TicTacToe).grid
        = setCell t.grid x y m from rfl, setCell,
      List.set_eq_of_length_le (le_of_not_lt hx)] at hr
    exact hrows r hr

theorem charsOK_place (t : TicTacToe) (x y : Nat) (m : Char) (p : Bool)
    (hm : m = 'X' ∨ m = 'O' ∨ m = '_') (h : charsOK t) :
    charsOK ⟨setCell t.grid x y m, p⟩ := by
  intro r hr ch hch
  by_cases hx : x < t.grid.length
  · rcases List.mem_or_eq_of_mem_set hr with hr' | hr'
    · exact h r hr' ch hch
    · subst hr'
      rcases List.mem_or_eq_of_mem_set hch with hch' | hch'
      · exact h _ (getD_mem_of_lt _ _ _ hx) ch hch'
      · subst hch'
        exact hm
  · rw [show ({ grid := setCell t.grid x y m, player := p } : TicTacToe).grid
        = setCell t.grid x y m from rfl, setCell,
      List.set_eq_of_length_le (le_of_not_lt hx)] at hr
    exact h r hr ch hch

theorem parity_place (t : TicTacToe) (x y : Nat)
    (hcell : cell t.grid x y = '_') (hp : parityOK t) :
    parityOK ⟨setCell t.grid x y (if t.player then 'X' else 'O'), !t.player⟩ := by
  have hX := countMark_place t x y (if t.player then 'X' else 'O') (!t.player) hcell 'X'
  have hO := countMark_place t x y (if t.player then 'X' else 'O') (!t.player) hcell 'O'
  unfold parityOK at hp ⊢
  cases hpl : t.player with
  | true =>
    simp only [hpl] at hX hO hp ⊢
    simp +decide at hX hO hp ⊢
    omega
  | false =>
    simp only [hpl] at hX hO hp ⊢
    simp +decide at hX hO hp ⊢
    omega

theorem Inv_place_move (t : TicTacToe) (s : String)
    (h : ¬ isErrorResult (place_move t s).1) (hi : Inv t) :
    Inv (place_move t s).2 := by
  obtain ⟨hwf, hchars, hpar⟩ := hi
  obtain ⟨-, -, -, -, -, hshape⟩ := place_move_spec t s
  obtain ⟨hst, -, -, -, hcell⟩ := hshape h
  rw [hst]
  refine ⟨WF_place _ _ _ _ _ hwf, charsOK_place _ _ _ _ _ ?_ hchars,
    parity_place _ _ _ hcell hpar⟩
  cases t.player <;> simp

theorem Inv_applyMoves (ms : List String) (t t' : TicTacToe)
    (hi : Inv t) (h : applyMoves t ms = some t') : Inv t' := by
  induction ms generalizing t with
  | nil =>
    rw [applyMoves] at h
    injection h with h2
    rwa [← h2]
  | cons s rest ih =>
    rw [applyMoves] at h
    split_ifs at h with he
    exact ih _ (Inv_place_move t s he hi) h

theorem Inv_initial : Inv initial := by
  refine ⟨⟨by decide, ?_⟩, ?_, ?_⟩
  · intro r hr
    fin_cases hr <;> decide
  · intro r hr ch hch
    fin_cases hr <;> fin_cases hch <;> decide
  · unfold parityOK countMark
    exact Or.inl ⟨rfl, by decide⟩

theorem reachable_Inv (t : TicTacToe) (h : Reachable t) : Inv t := by
  obtain ⟨ms, hms⟩ := h
  exact Inv_applyMoves ms initial t Inv_initial hms

/-- Claim C5: after every successful `place_move` starting from the empty
board, the difference between the number of 'X' marks and 'O' marks is 0
or 1, and it is 0 exactly when 'X' (First) is the side to move. -/
theorem move_count_invariant (ms : List String) (t : TicTacToe)
    (h : applyMoves initial ms = some t) :
    ((countMark t 'X' : Int) - countMark t 'O' = 0 ∨
      (countMark t 'X' : Int) - countMark t 'O' = 1)
    ∧ ((countMark t 'X' : Int) - countMark t 'O' = 0 ↔ t.player = true) := by
  have hp := (reachable_Inv t ⟨ms, h⟩).2.2
  rcases hp with ⟨hpl, hc⟩ | ⟨hpl, hc⟩
  · rw [hpl]
    refine ⟨Or.inl (by omega), ?_⟩
    exact ⟨fun _ => rfl, fun _ => by omega⟩
  · rw [hpl]
    refine ⟨Or.inr (by omega), ?_⟩
    constructor
    · intro h2
      exact absurd h2 (by omega)
    · intro h2
      exact absurd h2 (by simp)

theorem move_count_invariant_witness :
    (applyMoves initial ["1 1"] =
      some (TicTacToe.mk [['X', '_', '_'], ['_', '_', '_'], ['_', '_', '_']] false))
    ∧ (((countMark (TicTacToe.mk [['X', '_', '_'], ['_', '_', '_'], ['_', '_', '_']] false) 'X' : Int) -
          countMark (TicTacToe.mk [['X', '_', '_'], ['_', '_', '_'], ['_', '_', '_']] false) 'O' = 0 ∨
        (countMark (TicTacToe.mk [['X', '_', '_'], ['_', '_', '_'], ['_', '_', '_']] false) 'X' : Int) -
          countMark (TicTacToe.mk [['X', '_', '_'], ['_', '_', '_'], ['_', '_', '_']] false) 'O' = 1)
      ∧ ((countMark (TicTacToe.mk [['X', '_', '_'], ['_', '_', '_'], ['_', '_', '_']] false) 'X' : Int) -
          countMark (TicTacToe.mk [['X', '_', '_'], ['_', '_', '_'], ['_', '_', '_']] false) 'O' = 0 ↔
        (TicTacToe.mk [['X', '_', '_'], ['_', '_', '_'], ['_', '_', '_']] false).player = true)) :=
  ⟨by decide,
    move_count_invariant ["1 1"]
      (TicTacToe.mk [['X', '_', '_'], ['_', '_', '_'], ['_', '_', '_']] false) (by decide)⟩


/-- Claim C10: for any difficulty string other than "easy" and "medium" —
recognized or not — `get_coordinates` falls into the `else` branch and
delegates to `get_best_coordinates`; there is no rejection path. -/
theorem get_coordinates_default_hard (t : TicTacToe)
    (rand : List (Nat × Nat) → Nat × Nat) (difficulty : String)
    (h1 : difficulty ≠ "easy") (h2 : difficulty ≠ "medium") :
    get_coordinates t rand difficulty = hardBranch t := by
  unfold get_coordinates
  rw [if_neg h1, if_neg h2]

theorem count_triple_le (l : List Char) :
    l.count 'X' + l.count 'O' + l.count '_' ≤ l.length := by
  induction l with
  | nil => simp
  | cons d tail ih =>
    simp only [List.count_cons, List.length_cons, beq_iff_eq]
    have hind : (if d = 'X' then 1 else 0) + (if d = 'O' then 1 else 0)
        + (if d = '_' then 1 else 0) ≤ 1 := by
      by_cases hA : d = 'X'
      · subst hA; simp +decide
      · by_cases hB : d = 'O'
        · subst hB; simp +decide
        · simp [hA, hB]
          split_ifs <;> omega
    omega

theorem indicator_one_iff (d : Char) :
    (if d = 'X' then 1 else 0) + (if d = 'O' then 1 else 0)
        + (if d = '_' then 1 else 0) = 1 ↔ (d = 'X' ∨ d = 'O' ∨ d = '_') := by
  by_cases hA : d = 'X'
  · subst hA; simp +decide
  · by_cases hB : d = 'O'
    · subst hB; simp +decide
    · by_cases hC : d = '_'
      · subst hC; simp +decide
      · simp [hA, hB, hC]

theorem count_three_eq_length_iff (l : List Char) :
    l.count 'X' + l.count 'O' + l.count '_' = l.length ↔
      ∀ ch ∈ l, ch = 'X' ∨ ch = 'O' ∨ ch = '_' := by
  induction l with
  | nil => simp
  | cons d tail ih =>
    have hle := count_triple_le tail
    have hind : (if d = 'X' then 1 else 0) + (if d = 'O' then 1 else 0)
        + (if d = '_' then 1 else 0) ≤ 1 := by
      by_cases hA : d = 'X'
      · subst hA; simp +decide
      · by_cases hB : d = 'O'
        · subst hB; simp +decide
        · simp [hA, hB]
          split_ifs <;> omega
    simp only [List.count_cons, List.length_cons, List.mem_cons, beq_iff_eq]
    constructor
    · intro h
      have h1 : (if d = 'X' then 1 else 0) + (if d = 'O' then 1 else 0)
          + (if d = '_' then 1 else 0) = 1 := by omega
      have htail : tail.count 'X' + tail.count 'O' + tail.count '_' = tail.length := by
        omega
      intro ch hch
      rcases hch with rfl | hch
      · exact (indicator_one_iff ch).mp h1
      · exact ih.mp htail ch hch
    · intro h
      have h1 := (indicator_one_iff d).mpr (h d (Or.inl rfl))
      have htail := ih.mpr (fun ch hch => h ch (Or.inr hch))
      omega

theorem get_string_grid_chunks (l : List Char) (hl : l.length = 9) (pl : Bool) :
    get_string_grid ⟨(List.range 3).map (fun i => (l.drop (3 * i)).take 3), pl⟩ =
      String.mk l := by
  rcases l with _ | ⟨a, _ | ⟨b, _ | ⟨c, _ | ⟨d, _ | ⟨e, _ | ⟨f, _ | ⟨g2, _ | ⟨h2, _ | ⟨i2, _ | ⟨j, tl⟩⟩⟩⟩⟩⟩⟩⟩⟩⟩ <;>
    simp at hl
  rfl

theorem construct_some (p : String) :
    construct (some p) =
      (if (pyUpper p).length = 9 ∧
          (pyUpper p).toList.count 'X' + (pyUpper p).toList.count 'O' +
            (pyUpper p).toList.count '_' = 9 then
        (⟨(List.range 3).map (fun i => ((pyUpper p).toList.drop (3 * i)).take 3),
          ((pyUpper p).toList.count 'X' == (pyUpper p).toList.count 'O')⟩, false)
      else (initial, true)) := rfl

theorem string_length_toList (s : String) : s.length = s.toList.length := rfl

/-- Claim C8: after case normalization a preset is accepted exactly when
it has 9 characters drawn from the mark and blank alphabet; a rejected
preset leaves the default empty board (First to move) and emits the
diagnostic; an accepted preset is laid out row-major (its serialization
is the normalized string) with Second to move exactly when the two mark
counts differ — turn parity is not otherwise validated, so a preset of 8
'X' marks and one blank is still loaded. -/
theorem construct_contract (p : String) :
    ((construct (some p)).2 = false ↔
      (pyUpper p).length = 9 ∧
        ∀ ch ∈ (pyUpper p).toList, ch = 'X' ∨ ch = 'O' ∨ ch = '_')
    ∧ ((construct (some p)).2 = true → (construct (some p)).1 = initial)
    ∧ ((construct (some p)).2 = false →
        get_string_grid (construct (some p)).1 = pyUpper p
        ∧ ((construct (some p)).1.player = false ↔
            (pyUpper p).toList.count 'X' ≠ (pyUpper p).toList.count 'O'))
    ∧ (construct (some "XXXXXXXX_")).2 = false
    ∧ (construct (some "XXXXXXXX_")).1.player = false := by
  refine ⟨?_, ?_, ?_, by decide, by decide⟩ <;>
    rw [construct_some] <;>
    split_ifs with hacc
  · simp only [true_iff]
    have hlen : (pyUpper p).toList.length = 9 := by
      rw [← string_length_toList]
      exact hacc.1
    exact ⟨hacc.1, (count_three_eq_length_iff _).mp (by rw [hlen]; exact hacc.2)⟩
  · simp only [false_iff]
    intro hcl
    obtain ⟨h1, h2⟩ := hcl
    refine hacc ⟨h1, ?_⟩
    rw [(count_three_eq_length_iff _).mpr h2, ← string_length_toList]
    exact h1
  · simp
  · simp
  · intro _
    have hlen : (pyUpper p).toList.length = 9 := by
      rw [← string_length_toList]
      exact hacc.1
    constructor
    · rw [show ((⟨(List.range 3).map (fun i => ((pyUpper p).toList.drop (3 * i)).take 3),
            ((pyUpper p).toList.count 'X' == (pyUpper p).toList.count 'O')⟩,
              (false : Bool)).1 : TicTacToe) =
          ⟨(List.range 3).map (fun i => ((pyUpper p).toList.drop (3 * i)).take 3),
            ((pyUpper p).toList.count 'X' == (pyUpper p).toList.count 'O')⟩ from rfl]
      rw [get_string_grid_chunks _ hlen]
      rfl
    · simp
  · exact fun h => h.elim

theorem get_coordinates_default_hard_witness :
    (("strange" : String) ≠ "easy" ∧ ("strange" : String) ≠ "medium")
    ∧ get_coordinates initial (fun _ => (1, 1)) "strange" = hardBranch initial :=
  ⟨⟨by decide, by decide⟩,
    get_coordinates_default_hard initial (fun _ => (1, 1)) "strange" (by decide) (by decide)⟩


/-- The indices of the other two cells of a 3-cell line, given the index
of one cell. -/
def otherTwoIdx (k : Nat) : Nat × Nat :=
  if k = 0 then (1, 2) else if k = 1 then (0, 2) else (0, 1)

/-- Cell `c` (1-based) qualifies for the heuristic: some line through it
(its row, its column, or an applicable diagonal) has its other two cells
equal and non-blank, regardless of which side owns those marks. -/
def qualifies (g : List (List Char)) (c : Nat × Nat) : Prop :=
  (cell g (c.1 - 1) (otherTwoIdx (c.2 - 1)).1 = cell g (c.1 - 1) (otherTwoIdx (c.2 - 1)).2 ∧
    cell g (c.1 - 1) (otherTwoIdx (c.2 - 1)).2 ≠ '_')
  ∨ (cell g (otherTwoIdx (c.1 - 1)).1 (c.2 - 1) = cell g (otherTwoIdx (c.1 - 1)).2 (c.2 - 1) ∧
    cell g (otherTwoIdx (c.1 - 1)).2 (c.2 - 1) ≠ '_')
  ∨ (c.1 - 1 = c.2 - 1 ∧
    cell g (otherTwoIdx (c.1 - 1)).1 (otherTwoIdx (c.1 - 1)).1 =
      cell g (otherTwoIdx (c.1 - 1)).2 (otherTwoIdx (c.1 - 1)).2 ∧
    cell g (otherTwoIdx (c.1 - 1)).2 (otherTwoIdx (c.1 - 1)).2 ≠ '_')
  ∨ ((c.1 - 1) + (c.2 - 1) = 2 ∧
    cell g (otherTwoIdx (c.1 - 1)).1 (2 - (otherTwoIdx (c.1 - 1)).1) =
      cell g (otherTwoIdx (c.1 - 1)).2 (2 - (otherTwoIdx (c.1 - 1)).2) ∧
    cell g (otherTwoIdx (c.1 - 1)).2 (2 - (otherTwoIdx (c.1 - 1)).2) ≠ '_')

instance (g : List (List Char)) (c : Nat × Nat) : Decidable (qualifies g c) := by
  unfold qualifies
  infer_instance

set_option maxHeartbeats 6400000 in
theorem relevantScan_cell_iff (t : TicTacToe) (c : Nat × Nat) (rest : List (Nat × Nat))
    (h1 : 1 ≤ c.1) (h2 : c.1 ≤ 3) (h3 : 1 ≤ c.2) (h4 : c.2 ≤ 3) :
    relevantScan t (c :: rest) =
      (if qualifies t.grid c then some c else relevantScan t rest) := by
  obtain ⟨a, b⟩ := c
  simp only at h1 h2 h3 h4
  interval_cases a <;> interval_cases b <;>
    (rw [relevantScan]
     simp only [neighbours, qualifies, otherTwoIdx]
     norm_num
     split_ifs <;> tauto)

theorem mem_blank_bounds (t : TicTacToe) (c : Nat × Nat)
    (h : c ∈ get_blank_coordinates t) :
    1 ≤ c.1 ∧ c.1 ≤ 3 ∧ 1 ≤ c.2 ∧ c.2 ≤ 3 := by
  unfold get_blank_coordinates at h
  simp only [List.mem_map, List.mem_filter, List.mem_range] at h
  obtain ⟨pos, ⟨hpos, -⟩, rfl⟩ := h
  omega

theorem relevantScan_eq_find (t : TicTacToe) (l : List (Nat × Nat))
    (hl : ∀ c ∈ l, 1 ≤ c.1 ∧ c.1 ≤ 3 ∧ 1 ≤ c.2 ∧ c.2 ≤ 3) :
    relevantScan t l = l.find? (fun c => decide (qualifies t.grid c)) := by
  induction l with
  | nil => rfl
  | cons c rest ih =>
    obtain ⟨hb1, hb2, hb3, hb4⟩ := hl c (List.mem_cons_self c rest)
    rw [relevantScan_cell_iff t c rest hb1 hb2 hb3 hb4, List.find?_cons]
    by_cases hq : qualifies t.grid c
    · simp [hq]
    · simp [hq]
      exact ih (fun d hd => hl d (List.mem_cons_of_mem c hd))

/-- Claim C6: `get_relevant_coordinates` returns the first cell of
`get_blank_coordinates` (which enumerates empty cells in row-major
order) through which some line has its other two cells equal and
non-blank, whichever side owns the marks; when no blank cell qualifies
it falls back to `random.choice` over the blanks; and on the preset
"X_XO_O___" (First to move) it returns (1, 2). -/
theorem heuristic_contract (t : TicTacToe)
    (rand : List (Nat × Nat) → Nat × Nat) :
    (∀ c₀, (get_blank_coordinates t).find? (fun c => decide (qualifies t.grid c)) =
        some c₀ → get_relevant_coordinates t rand = c₀)
    ∧ ((get_blank_coordinates t).find? (fun c => decide (qualifies t.grid c)) = none →
        get_relevant_coordinates t rand = rand (get_blank_coordinates t))
    ∧ get_relevant_coordinates (construct (some "X_XO_O___")).1 rand = (1, 2) := by
  have hscan := relevantScan_eq_find t (get_blank_coordinates t)
    (fun c hc => mem_blank_bounds t c hc)
  refine ⟨?_, ?_, ?_⟩
  · intro c₀ hfind
    simp only [get_relevant_coordinates]
    rw [hscan, hfind]
  · intro hfind
    simp only [get_relevant_coordinates]
    rw [hscan, hfind]
  · simp only [get_relevant_coordinates]
    rw [show relevantScan (construct (some "X_XO_O___")).1
        (get_blank_coordinates (construct (some "X_XO_O___")).1) =
        some (1, 2) from by decide]


theorem WF_destruct9 (t : TicTacToe) (h : WF t) :
    ∃ a b c d e f g h2 i, t.grid = [[a, b, c], [d, e, f], [g, h2, i]] := by
  obtain ⟨hlen, hrows⟩ := h
  rcases hg : t.grid with _ | ⟨r0, _ | ⟨r1, _ | ⟨r2, _ | ⟨r3, tl⟩⟩⟩⟩ <;>
    rw [hg] at hlen <;> simp at hlen
  have h0 := hrows r0 (by rw [hg]; simp)
  have h1 := hrows r1 (by rw [hg]; simp)
  have h2 := hrows r2 (by rw [hg]; simp)
  rcases r0 with _ | ⟨a, _ | ⟨b, _ | ⟨c, _ | ⟨x, tl0⟩⟩⟩⟩ <;> simp at h0
  rcases r1 with _ | ⟨d, _ | ⟨e, _ | ⟨f, _ | ⟨x, tl1⟩⟩⟩⟩ <;> simp at h1
  rcases r2 with _ | ⟨g, _ | ⟨h3, _ | ⟨i, _ | ⟨x, tl2⟩⟩⟩⟩ <;> simp at h2
  exact ⟨a, b, c, d, e, f, g, h3, i, rfl⟩

theorem upper_fixed_char (x : Char) (hx : x = 'X' ∨ x = 'O' ∨ x = '_') :
    Char.toUpper x = x := by
  rcases hx with rfl | rfl | rfl <;> decide

/-- Claim C9: for any state reachable by legal play from the empty
board, re-constructing a board from its 9-character serialization gives
back exactly the same grid and side-to-move, with no diagnostic: the
preset turn rule (Second to move iff the mark counts differ) coincides
with legal-play parity. -/
theorem serialize_construct_round_trip (t : TicTacToe) (h : Reachable t) :
    construct (some (get_string_grid t)) = (t, false) := by
  obtain ⟨hwf, hchars, hpar⟩ := reachable_Inv t h
  obtain ⟨a, b, c, d, e, f, g, h3, i, hg⟩ := WF_destruct9 t hwf
  obtain ⟨gr, pl⟩ := t
  simp only at hg
  subst hg
  have hstr : get_string_grid ⟨[[a, b, c], [d, e, f], [g, h3, i]], pl⟩ =
      String.mk [a, b, c, d, e, f, g, h3, i] := rfl
  have hmem : ∀ ch ∈ [a, b, c, d, e, f, g, h3, i], ch = 'X' ∨ ch = 'O' ∨ ch = '_' := by
    intro ch hch
    have hflat : ch ∈ ([[a, b, c], [d, e, f], [g, h3, i]] : List (List Char)).flatten := by
      simpa using hch
    rw [List.mem_flatten] at hflat
    obtain ⟨r, hr, hchr⟩ := hflat
    exact hchars r hr ch hchr
  have hup : pyUpper (String.mk [a, b, c, d, e, f, g, h3, i]) =
      String.mk [a, b, c, d, e, f, g, h3, i] := by
    unfold pyUpper
    have : [a, b, c, d, e, f, g, h3, i].map Char.toUpper =
        [a, b, c, d, e, f, g, h3, i] := by
      rw [List.map_congr_left (g := id)
        (fun ch hch => upper_fixed_char ch (hmem ch hch)), List.map_id]
    rw [show (String.mk [a, b, c, d, e, f, g, h3, i]).toList =
      [a, b, c, d, e, f, g, h3, i] from rfl, this]
  rw [hstr, construct_some, hup]
  have hcnt : ([a, b, c, d, e, f, g, h3, i] : List Char).count 'X' +
      [a, b, c, d, e, f, g, h3, i].count 'O' +
      [a, b, c, d, e, f, g, h3, i].count '_' = 9 := by
    have := (count_three_eq_length_iff [a, b, c, d, e, f, g, h3, i]).mpr hmem
    simpa using this
  rw [if_pos ⟨rfl, hcnt⟩]
  have hgrid : (List.range 3).map
      (fun j => (((String.mk [a, b, c, d, e, f, g, h3, i]).toList.drop (3 * j)).take 3)) =
      [[a, b, c], [d, e, f], [g, h3, i]] := rfl
  have hcm : countMark ⟨[[a, b, c], [d, e, f], [g, h3, i]], pl⟩ 'X' =
      [a, b, c, d, e, f, g, h3, i].count 'X' := rfl
  have hcmO : countMark ⟨[[a, b, c], [d, e, f], [g, h3, i]], pl⟩ 'O' =
      [a, b, c, d, e, f, g, h3, i].count 'O' := rfl
  have hpl : ([a, b, c, d, e, f, g, h3, i].count 'X' ==
      [a, b, c, d, e, f, g, h3, i].count 'O') = pl := by
    rcases hpar with ⟨hp1, hp2⟩ | ⟨hp1, hp2⟩ <;>
      rw [hcm, hcmO] at hp2 <;>
      simp only at hp1 <;>
      subst hp1
    · simp [hp2]
    · rw [hp2]
      simp
  refine Prod.ext ?_ rfl
  show (⟨(List.range 3).map
      (fun j => (((String.mk [a, b, c, d, e, f, g, h3, i]).toList.drop (3 * j)).take 3)),
      ([a, b, c, d, e, f, g, h3, i].count 'X' == [a, b, c, d, e, f, g, h3, i].count 'O')⟩ :
      TicTacToe) = ⟨[[a, b, c], [d, e, f], [g, h3, i]], pl⟩
  rw [hgrid, hpl]

theorem serialize_construct_round_trip_witness :
    Reachable initial ∧ construct (some (get_string_grid initial)) = (initial, false) :=
  ⟨⟨[], rfl⟩, serialize_construct_round_trip initial ⟨[], rfl⟩⟩

end TTT
